import Mathlib

/- Shallow embedding of src/agents/tools/analyze_dependencies.py:
   the source dependency graph analyzer (module identity resolution,
   extraction of imports, graph building, Tarjan SCC analytics,
   JSON payload). -/

namespace DepAnalyzer

/- String helpers, implemented over the character list so that concrete
   evaluation reduces inside the kernel.  Semantics match the Python
   string methods used by the analyzer. -/

def splitCharsOn (c : Char) : List Char → List (List Char)
  | [] => [[]]
  | x :: xs =>
    let r := splitCharsOn c xs
    if x = c then [] :: r
    else
      match r with
      | [] => [[x]]
      | y :: ys => (x :: y) :: ys

def splitDot (s : String) : List String :=
  (splitCharsOn '.' s.data).map String.mk

def joinDot (parts : List String) : String :=
  String.intercalate "." parts

def strEndsWith (s suf : String) : Bool :=
  suf.data.isSuffixOf s.data

def strDropRight (n : Nat) (s : String) : String :=
  String.mk (s.data.take (s.data.length - n))

def replaceChar (a b : Char) (s : String) : String :=
  String.mk (s.data.map (fun c => if c = a then b else c))

def strToLower (s : String) : String :=
  String.mk (s.data.map Char.toLower)

def stripDots (s : String) : String :=
  String.mk (((s.data.dropWhile (fun c => c = '.')).reverse.dropWhile
    (fun c => c = '.')).reverse)

def charListLe : List Char → List Char → Bool
  | [], _ => true
  | _ :: _, [] => false
  | a :: as, b :: bs => if a = b then charListLe as bs else decide (a < b)

def strLe (a b : String) : Bool :=
  charListLe a.data b.data

def insertBy (le : α → α → Bool) (x : α) : List α → List α
  | [] => [x]
  | y :: ys => if le x y then x :: y :: ys else y :: insertBy le x ys

def sortBy (le : α → α → Bool) (l : List α) : List α :=
  l.foldr (insertBy le) []

def sortStrings (l : List String) : List String :=
  sortBy strLe l

/- Insertion-ordered dictionaries modelling Python `dict` (updates keep
   the original key position, fresh keys append at the end). -/

abbrev StrDict (β : Type) := List (String × β)

def dictInsert (k : String) (v : β) (d : StrDict β) : StrDict β :=
  if d.any (fun p => k == p.1) then
    d.map (fun p => if k == p.1 then (k, v) else p)
  else d ++ [(k, v)]

def dictGetD (d : StrDict β) (k : String) (dflt : β) : β :=
  (List.lookup k d).getD dflt

/- Python `set` of strings, modelled as a duplicate-free list in insertion
   order.  Membership, cardinality and sorted serialization do not depend
   on the enumeration order; the one place the analyzer iterates such a
   set order-sensitively - building the Tarjan adjacency in
   compute_scc_tarjan, where CPython yields a hash-randomized order that
   varies between processes - takes the enumeration as an explicit
   parameter (see compute_scc_tarjan_ord). -/

def setInsert (x : String) (s : List String) : List String :=
  if x ∈ s then s else s ++ [x]

/- Data model: Node, Edge, Issue, DependencyGraph (dataclasses from the
   source; `metadata` defaults to an empty dict and is never populated). -/

structure Node where
  id : String
  kind : String
  label : String
  module : Option String := none
  file_path : Option String := none
  is_package : Bool := false
  metadata : List (String × String) := []
  deriving DecidableEq, Repr

structure Edge where
  source : String
  target : String
  kind : String
  raw : String
  import_type : Option String := none
  lineno : Option Nat := none
  col_offset : Option Nat := none
  deriving DecidableEq, Repr

structure Issue where
  type : String
  file : String
  message : String
  lineno : Option Nat := none
  deriving DecidableEq, Repr

structure DependencyGraph where
  nodes : StrDict Node := []
  edges : List Edge := []
  forward : StrDict (List String) := []
  reverse : StrDict (List String) := []
  issues : List Issue := []
  deriving DecidableEq, Repr

def addNode (g : DependencyGraph) (n : Node) : DependencyGraph :=
  { g with nodes := dictInsert n.id n g.nodes }

def adjInsert (d : StrDict (List String)) (k v : String) : StrDict (List String) :=
  dictInsert k (setInsert v (dictGetD d k [])) d

def addEdge (g : DependencyGraph) (e : Edge) : DependencyGraph :=
  { g with
    edges := g.edges ++ [e]
    forward := adjInsert g.forward e.source e.target
    reverse := adjInsert g.reverse e.target e.source }

def addIssue (g : DependencyGraph) (i : Issue) : DependencyGraph :=
  { g with issues := g.issues ++ [i] }

/- module_name_from_path: project-relative posix path to (module, is_package). -/

def module_name_from_path (rel : String) : String × Bool :=
  if rel = "__init__.py" then ("__init__", true)
  else if strEndsWith rel "/__init__.py" then
    (replaceChar '/' '.' (strDropRight 12 rel), true)
  else (replaceChar '/' '.' (strDropRight 3 rel), false)

/- build_module_index over the discovered relative paths. -/

def moduleIndexStep (acc : StrDict String × StrDict String × StrDict Bool)
    (rel : String) : StrDict String × StrDict String × StrDict Bool :=
  let m := module_name_from_path rel
  (dictInsert m.1 rel acc.1, dictInsert rel m.1 acc.2.1,
    dictInsert m.1 m.2 acc.2.2)

def build_module_index (rels : List String) :
    StrDict String × StrDict String × StrDict Bool :=
  rels.foldl moduleIndexStep ([], [], [])

/- pick_internal_module: exact match, then progressively strip trailing
   dotted segments (range(len(parts)-1, 0, -1)). -/

def pickInternalAux (mtf : StrDict String) (parts : List String) : Nat → Option String
  | 0 => none
  | i + 1 =>
    let pre := joinDot (parts.take (i + 1))
    if (List.lookup pre mtf).isSome then some pre
    else pickInternalAux mtf parts i

def pick_internal_module (candidate : String) (mtf : StrDict String) : Option String :=
  if (List.lookup candidate mtf).isSome then some candidate
  else pickInternalAux mtf (splitDot candidate) ((splitDot candidate).length - 1)

/- resolve_relative_base: drop (level - 1) trailing segments of the package
   (the current module itself when it is a package initializer, otherwise
   the module with its last dotted segment removed). -/

def packagePartsOf (current_module : String) (is_package : Bool) : List String :=
  let pkg := if is_package then current_module
    else joinDot ((splitDot current_module).dropLast)
  if pkg = "" then [] else splitDot pkg

def resolve_relative_base (current_module : String) (is_package : Bool)
    (level : Nat) : Option String :=
  let pkg_parts := packagePartsOf current_module is_package
  let drop := level - 1
  if drop > pkg_parts.length then none
  else some (joinDot (pkg_parts.take (pkg_parts.length - drop)))

/- Abstract syntax: just enough of the Python AST for the analyzer.
   `Func` models ast.Call.func shapes (Name / Attribute / anything else);
   `Expr` models expressions (ast.walk visits every nested node);
   `Stmt` models statements, with `block` standing for any compound
   statement carrying a nested body (function, class, if, ...). -/

inductive Func where
  | name (id : String)
  | attr (a : String)
  | other
  deriving DecidableEq, Repr

inductive Expr where
  | call (f : Func) (args : List Expr) (lineno col : Nat)
  | constStr (s : String) (lineno col : Nat)
  | constOther
  | other (children : List Expr)
  deriving Repr

inductive Stmt where
  | imp (names : List String) (lineno col : Nat)
  | impFrom (module : Option String) (names : List String) (level : Nat)
      (lineno col : Nat)
  | exprStmt (e : Expr)
  | block (body : List Stmt)
  deriving Repr

mutual
def walkExpr : Expr → List Expr
  | .call f args l c => .call f args l c :: walkExprList args
  | .constStr s l c => [.constStr s l c]
  | .constOther => [.constOther]
  | .other cs => .other cs :: walkExprList cs

def walkExprList : List Expr → List Expr
  | [] => []
  | e :: es => walkExpr e ++ walkExprList es
end

mutual
def walkStmt : Stmt → List Stmt
  | .imp ns l c => [.imp ns l c]
  | .impFrom m ns lv l c => [.impFrom m ns lv l c]
  | .exprStmt e => [.exprStmt e]
  | .block body => .block body :: walkStmtList body

def walkStmtList : List Stmt → List Stmt
  | [] => []
  | s :: ss => walkStmt s ++ walkStmtList ss
end

/- All expressions reachable in a parsed body (for the ast.walk pass of
   extract_config_accesses). -/

def bodyExprs (body : List Stmt) : List Expr :=
  (walkStmtList body).foldr
    (fun s acc => match s with | .exprStmt e => walkExpr e ++ acc | _ => acc) []

/- normalize_config_path: backslashes to forward slashes. -/

def normalize_config_path (raw : String) : String :=
  replaceChar '\\' '/' raw

def validConfigExt : List String :=
  [".json", ".yaml", ".yml", ".sql", ".txt", ".csv", ".ini", ".toml", ".env"]

def hasConfigExt (s : String) : Bool :=
  validConfigExt.any (fun ext => strEndsWith s ext)

def funcMatches : Func → Bool
  | .name id => id ∈ ["open", "Path"]
  | .attr a => a ∈ ["read_csv", "read_json", "read_sql", "read_excel",
      "read_parquet", "load"]
  | .other => false

/- The body of the `for node in ast.walk(tree)` loop of
   extract_config_accesses, as a partial match on one walked node. -/

def matchesConfig : Expr → Option (String × Nat × Nat)
  | .call f args l c =>
    match args with
    | .constStr s _ _ :: _ =>
      if hasConfigExt (strToLower s) && funcMatches f then
        some (normalize_config_path s, l, c)
      else none
    | _ => none
  | _ => none

def extract_config_accesses (body : List Stmt) : List (String × Nat × Nat) :=
  (bodyExprs body).filterMap matchesConfig

/- A discovered source file: its project-relative posix path and the
   outcome of reading + ast.parse (`.error msg` models the except branch). -/

structure SrcFile where
  rel : String
  parsed : Except String (List Stmt)

/- build_dependency_graph, decomposed into the loop bodies of the source. -/

def mkConfigNode (raw : String) : Node :=
  { id := "file:" ++ raw, kind := "config_file", label := raw,
    file_path := some raw }

def processConfigStep (source_id : String)
    (acc : DependencyGraph × List String) (entry : String × Nat × Nat) :
    DependencyGraph × List String :=
  let (g, seen) := acc
  let raw := entry.1
  let cfg_id := "file:" ++ raw
  let g := if (List.lookup cfg_id g.nodes).isSome then g
    else addNode g (mkConfigNode raw)
  let key := source_id ++ "->" ++ cfg_id
  if key ∈ seen then (g, seen)
  else
    (addEdge g
      { source := source_id, target := cfg_id, kind := "config_access",
        raw := raw, lineno := some entry.2.1, col_offset := some entry.2.2 },
      seen ++ [key])

def mkExternalNode (candidate : String) : Node :=
  { id := "external:" ++ candidate, kind := "external_package",
    label := candidate, module := some candidate }

/- Body of `for alias in node.names` under the ast.Import branch. -/

def processImportAlias (mtf : StrDict String) (source_id : String)
    (lineno col : Nat) (g : DependencyGraph) (imported : String) :
    DependencyGraph :=
  match pick_internal_module imported mtf with
  | some target_module =>
    addEdge g
      { source := source_id, target := "module:" ++ target_module,
        kind := "imports", raw := imported, import_type := some "import",
        lineno := some lineno, col_offset := some col }
  | none =>
    let target_id := "external:" ++ imported
    let g := if (List.lookup target_id g.nodes).isSome then g
      else addNode g (mkExternalNode imported)
    addEdge g
      { source := source_id, target := target_id, kind := "imports",
        raw := imported, import_type := some "import",
        lineno := some lineno, col_offset := some col }

/- alias_targets construction for the ast.ImportFrom branch. -/

def aliasTargets (import_base : String) (names : List String) : List String :=
  if import_base = "" && !names.isEmpty then
    names.filter (fun a => a ≠ "*")
  else if !names.isEmpty then
    names.map (fun a =>
      if a = "*" then import_base
      else if import_base ≠ "" then import_base ++ "." ++ a
      else a)
  else [import_base]

/- Body of `for candidate in alias_targets` under the ast.ImportFrom branch. -/

def processFromCandidate (mtf : StrDict String) (rel_file source_id : String)
    (import_base import_type : String) (isRelative : Bool) (lineno col : Nat)
    (g : DependencyGraph) (candidate0 : String) : DependencyGraph :=
  let candidate := stripDots candidate0
  if candidate = "" then g
  else
    let target_module :=
      match pick_internal_module candidate mtf with
      | some t => some t
      | none =>
        if import_base ≠ "" then pick_internal_module import_base mtf else none
    match target_module with
    | some t =>
      addEdge g
        { source := source_id, target := "module:" ++ t, kind := "imports",
          raw := candidate, import_type := some import_type,
          lineno := some lineno, col_offset := some col }
    | none =>
      let target_id := "external:" ++ candidate
      let g := if (List.lookup target_id g.nodes).isSome then g
        else addNode g (mkExternalNode candidate)
      let g := if isRelative then
          addIssue g
            { type := "unresolved_relative_target", file := rel_file,
              message := "Unresolved relative target: " ++ candidate,
              lineno := some lineno }
        else g
      addEdge g
        { source := source_id, target := target_id, kind := "imports",
          raw := candidate, import_type := some import_type,
          lineno := some lineno, col_offset := some col }

/- ast.ImportFrom branch of the per-statement walk. -/

def processImportFrom (mtf : StrDict String) (rel_file module_name : String)
    (is_package : Bool) (source_id : String) (g : DependencyGraph)
    (module? : Option String) (names : List String) (level : Nat)
    (lineno col : Nat) : DependencyGraph :=
  let base_module := module?.getD ""
  if level > 0 then
    match resolve_relative_base module_name is_package level with
    | none =>
      addIssue g
        { type := "relative_import_error", file := rel_file,
          message := "Unable to resolve relative import: level=" ++
            toString level ++ ", module=" ++ base_module,
          lineno := some lineno }
    | some resolved_base =>
      let import_base :=
        stripDots (joinDot ([resolved_base, base_module].filter (fun p => p ≠ "")))
      (aliasTargets import_base names).foldl
        (processFromCandidate mtf rel_file source_id import_base
          "relative_import" true lineno col) g
  else
    (aliasTargets base_module names).foldl
      (processFromCandidate mtf rel_file source_id base_module
        "from_import" false lineno col) g

/- One step of `for node in ast.walk(tree)` over statements. -/

def processStmt (mtf : StrDict String) (rel_file module_name : String)
    (is_package : Bool) (source_id : String) (g : DependencyGraph) :
    Stmt → DependencyGraph
  | .imp names lineno col =>
    names.foldl (processImportAlias mtf source_id lineno col) g
  | .impFrom module? names level lineno col =>
    processImportFrom mtf rel_file module_name is_package source_id g
      module? names level lineno col
  | .exprStmt _ => g
  | .block _ => g

/- Per-file loop body of build_dependency_graph. -/

def processFile (mtf : StrDict String) (g : DependencyGraph)
    (file : SrcFile) : DependencyGraph :=
  let m := module_name_from_path file.rel
  let source_id := "module:" ++ m.1
  match file.parsed with
  | .error msg =>
    addIssue g { type := "parse_error", file := file.rel, message := msg }
  | .ok body =>
    let g :=
      ((extract_config_accesses body).foldl (processConfigStep source_id)
        (g, [])).1
    (walkStmtList body).foldl
      (processStmt mtf file.rel m.1 m.2 source_id) g

def mkModuleNode (module rel : String) (is_package : Bool) : Node :=
  { id := "module:" ++ module, kind := "python_module", label := module,
    module := some module, file_path := some rel, is_package := is_package }

def build_dependency_graph (files : List SrcFile) : DependencyGraph :=
  let idx := build_module_index (files.map (fun f => f.rel))
  let mtf := idx.1
  let mip := idx.2.2
  let g0 := mtf.foldl
    (fun g p => addNode g (mkModuleNode p.1 p.2 (dictGetD mip p.1 false)))
    {}
  files.foldl (processFile mtf) g0

/- Graph analytics engine. -/

def internal_module_ids (g : DependencyGraph) : List String :=
  sortStrings ((g.nodes.filter (fun p => p.2.kind = "python_module")).map
    (fun p => p.1))

structure TarjanState where
  index : Nat := 0
  stack : List String := []
  onStack : List String := []
  indices : StrDict Nat := []
  lowlink : StrDict Nat := []
  sccs : List (List String) := []
  deriving Repr

/- The `while True: w = stack.pop(); ...` loop closing a component. -/

def popComp (v : String) : List String → List String →
    List String × List String
  | [], acc => (acc, [])
  | w :: rest, acc =>
    if w = v then (acc ++ [w], rest) else popComp v rest (acc ++ [w])

/- strongconnect, with a fuel argument bounding the recursion depth
   (the Python version recurses; any fuel at least the number of
   internal modules plus one is sufficient). -/

def strongconnect (adj : StrDict (List String)) :
    Nat → String → TarjanState → TarjanState
  | 0, _, st => st
  | fuel + 1, v, st =>
    let st := { st with
      indices := dictInsert v st.index st.indices
      lowlink := dictInsert v st.index st.lowlink
      index := st.index + 1
      stack := v :: st.stack
      onStack := setInsert v st.onStack }
    let st := (dictGetD adj v []).foldl
      (fun st w =>
        if (List.lookup w st.indices).isNone then
          let st := strongconnect adj fuel w st
          let ll := min (dictGetD st.lowlink v 0) (dictGetD st.lowlink w 0)
          { st with lowlink := dictInsert v ll st.lowlink }
        else if w ∈ st.onStack then
          let ll := min (dictGetD st.lowlink v 0) (dictGetD st.indices w 0)
          { st with lowlink := dictInsert v ll st.lowlink }
        else st)
      st
    if dictGetD st.lowlink v 0 = dictGetD st.indices v 0 then
      let pc := popComp v st.stack []
      { st with
        stack := pc.2
        onStack := st.onStack.filter (fun x => x ∉ pc.1)
        sccs := st.sccs ++ [sortStrings pc.1] }
    else st

/- compute_scc_tarjan builds its adjacency by iterating each forward
   adjacency set (`[t for t in graph.forward.get(m, set()) if t in
   allowed]`).  CPython enumerates a set of strings in a hash-randomized
   order that can change between processes; `ord m s` is that enumeration
   of the set s at key m.  The analyzer's own runs correspond to some
   unspecified ord; `fun _ s => s` is the canonical instantiation used
   where the order cannot matter. -/

def compute_scc_tarjan_ord (ord : String → List String → List String)
    (g : DependencyGraph) (module_ids : List String) : List (List String) :=
  let adj : StrDict (List String) := module_ids.map
    (fun m =>
      (m, (ord m (dictGetD g.forward m [])).filter (fun t => t ∈ module_ids)))
  let finalSt := module_ids.foldl
    (fun st v =>
      if (List.lookup v st.indices).isNone then
        strongconnect adj (module_ids.length + 1) v st
      else st)
    {}
  finalSt.sccs

def compute_scc_tarjan (g : DependencyGraph) (module_ids : List String) :
    List (List String) :=
  compute_scc_tarjan_ord (fun _ s => s) g module_ids

/- The pieces of compute_metrics, named so that theorems can refer to them. -/

def fanOutOf (g : DependencyGraph) (modules : List String) (m : String) : Nat :=
  ((dictGetD g.forward m []).filter (fun t => t ∈ modules)).length

def fanInOf (g : DependencyGraph) (modules : List String) (m : String) : Nat :=
  ((dictGetD g.reverse m []).filter (fun s => s ∈ modules)).length

def cyclicSccs_ord (ord : String → List String → List String)
    (g : DependencyGraph) : List (List String) :=
  (compute_scc_tarjan_ord ord g (internal_module_ids g)).filter
    (fun c => c.length > 1)

def cyclicSccs (g : DependencyGraph) : List (List String) :=
  cyclicSccs_ord (fun _ s => s) g

def selfCycles (g : DependencyGraph) : List (List String) :=
  (internal_module_ids g).filterMap
    (fun m => if m ∈ dictGetD g.forward m [] then some [m] else none)

/- key=lambda x: (-x[1], x[0]) — larger value first, ties by module id. -/

def topLe (a b : String × Nat) : Bool :=
  if b.2 < a.2 then true
  else if a.2 = b.2 then strLe a.1 b.1
  else false

structure MetricsSummary where
  total_nodes : Nat
  total_edges : Nat
  internal_modules : Nat
  external_packages : Nat
  config_files : Nat
  issues : Nat
  deriving DecidableEq, Repr

structure DegreeMetrics where
  fan_in : StrDict Nat
  fan_out : StrDict Nat
  top_fan_in : List (String × Nat)
  top_fan_out : List (String × Nat)
  deriving DecidableEq, Repr

structure Entrypoints where
  roots : List String
  sinks : List String
  isolated : List String
  deriving DecidableEq, Repr

structure CycleMetrics where
  scc_count : Nat
  self_cycle_count : Nat
  largest_scc_size : Nat
  sccs : List (List String)
  deriving DecidableEq, Repr

structure Metrics where
  summary : MetricsSummary
  degree_metrics : DegreeMetrics
  entrypoints : Entrypoints
  cycles : CycleMetrics
  deriving DecidableEq, Repr

def compute_metrics_ord (ord : String → List String → List String)
    (g : DependencyGraph) : Metrics :=
  let modules := internal_module_ids g
  let fan_out : StrDict Nat := modules.map (fun m => (m, fanOutOf g modules m))
  let fan_in : StrDict Nat := modules.map (fun m => (m, fanInOf g modules m))
  let roots := sortStrings (modules.filter (fun m => fanInOf g modules m = 0))
  let sinks := sortStrings (modules.filter (fun m => fanOutOf g modules m = 0))
  let isolated := sortStrings (modules.filter
    (fun m => fanInOf g modules m = 0 && fanOutOf g modules m = 0))
  let cyclic := cyclicSccs_ord ord g
  let selfCyc := selfCycles g
  let top_fan_out := (sortBy topLe fan_out).take 20
  let top_fan_in := (sortBy topLe fan_in).take 20
  let external_count :=
    (g.nodes.filter (fun p => p.2.kind = "external_package")).length
  let config_count :=
    (g.nodes.filter (fun p => p.2.kind = "config_file")).length
  { summary :=
    { total_nodes := g.nodes.length
      total_edges := g.edges.length
      internal_modules := modules.length
      external_packages := external_count
      config_files := config_count
      issues := g.issues.length }
    degree_metrics :=
    { fan_in := fan_in, fan_out := fan_out
      top_fan_in := top_fan_in, top_fan_out := top_fan_out }
    entrypoints := { roots := roots, sinks := sinks, isolated := isolated }
    cycles :=
    { scc_count := cyclic.length
      self_cycle_count := selfCyc.length
      largest_scc_size := (cyclic.map (fun c => c.length)).foldl max 0
      sccs := cyclic ++ selfCyc } }

def compute_metrics (g : DependencyGraph) : Metrics :=
  compute_metrics_ord (fun _ s => s) g

/- graph_to_json_payload: the canonical dependencies_graph.json document.
   `generated_at` models datetime.now(timezone.utc).isoformat(), passed in
   as the run's wall-clock timestamp. -/

structure Payload where
  version : String
  generated_at : String
  project_root : String
  nodes : List Node
  edges : List Edge
  adjacency_forward : StrDict (List String)
  adjacency_reverse : StrDict (List String)
  issues : List Issue
  metrics : Metrics
  deriving DecidableEq, Repr

def sortAdjacency (d : StrDict (List String)) : StrDict (List String) :=
  (sortBy (fun a b => strLe a.1 b.1) d).map (fun p => (p.1, sortStrings p.2))

def graph_to_json_payload (g : DependencyGraph) (metrics : Metrics)
    (project_root : String) (now : String) : Payload :=
  { version := "1.0.0"
    generated_at := now
    project_root := project_root
    nodes := sortBy (fun a b => strLe a.id b.id) (g.nodes.map (fun p => p.2))
    edges := g.edges
    adjacency_forward := sortAdjacency g.forward
    adjacency_reverse := sortAdjacency g.reverse
    issues := g.issues
    metrics := metrics }

/- The id/kind discipline actually enforced by the builder: internal
   modules are "module:<label>" with kind python_module, externals are
   "external:<label>" with kind external_package, config files are
   "file:<label>" with kind config_file. -/

def NodeOk (n : Node) : Prop :=
  (n.kind = "python_module" ∧ n.id = "module:" ++ n.label) ∨
  (n.kind = "external_package" ∧ n.id = "external:" ++ n.label) ∨
  (n.kind = "config_file" ∧ n.id = "file:" ++ n.label)

instance (n : Node) : Decidable (NodeOk n) := by
  unfold NodeOk; infer_instance

/- Concrete scenarios used by the claims. -/

def scenarioPkg : List SrcFile :=
  [ ⟨"pkg/a.py", .ok [.imp ["b"] 1 0]⟩,
    ⟨"pkg/b.py", .ok [.impFrom none ["c"] 1 1 0]⟩,
    ⟨"pkg/c.py", .ok []⟩ ]

def scenarioMutual : List SrcFile :=
  [ ⟨"a.py", .ok [.imp ["b"] 1 0]⟩,
    ⟨"b.py", .ok [.imp ["a"] 1 0]⟩ ]

def scenarioSelfLoop : List SrcFile :=
  [ ⟨"a.py", .ok [.imp ["a"] 1 0]⟩ ]

def scenarioRequests : List SrcFile :=
  [ ⟨"main.py", .ok
      [.impFrom (some "requests.sessions") ["Session"] 0 1 0,
       .imp ["requests"] 2 0]⟩ ]

def scenarioConfig : List SrcFile :=
  [ ⟨"app.py", .ok
      [.exprStmt (.call (.name "open") [.constStr "cfg.yaml" 1 5] 1 0)]⟩ ]

/- A hub module a importing into two disjoint two-module cycles; the
   enumeration order of forward[module:a] steers which cycle Tarjan
   emits first. -/

def scenarioHub : List SrcFile :=
  [ ⟨"a.py", .ok [.imp ["m"] 1 0, .imp ["x"] 2 0]⟩,
    ⟨"m.py", .ok [.imp ["n"] 1 0]⟩,
    ⟨"n.py", .ok [.imp ["m"] 1 0]⟩,
    ⟨"x.py", .ok [.imp ["y"] 1 0]⟩,
    ⟨"y.py", .ok [.imp ["x"] 1 0]⟩ ]

end DepAnalyzer

namespace DepAnalyzer

/-- C1 counterexample: the claim requires byte-identical
dependencies_graph.json documents across two consecutive runs, but
graph_to_json_payload embeds the wall-clock timestamp (generated_at =
datetime.now), so two runs at distinct instants produce distinct
documents even on identical input. -/
theorem C1_counterexample :
    graph_to_json_payload (build_dependency_graph scenarioPkg)
        (compute_metrics (build_dependency_graph scenarioPkg)) "/proj"
        "2024-01-01T00:00:00+00:00"
      ≠ graph_to_json_payload (build_dependency_graph scenarioPkg)
        (compute_metrics (build_dependency_graph scenarioPkg)) "/proj"
        "2024-01-01T00:00:01+00:00" := by decide

/-- C1 amended: for a fixed source tree, two consecutive runs agree
byte-for-byte on the graph-level fields of dependencies_graph.json -
version, project_root, the sorted node list, the edge list in build
order, both sorted adjacency maps and the issue list - whatever metrics
block and timestamp each run embeds; but the document as a whole is not
byte-identical: generated_at carries the run timestamp, and the order of
the multi-node SCC lists inside metrics.cycles.sccs follows Tarjan's
traversal of the hash-randomized set enumeration (modelled by the ord
parameter of compute_metrics_ord) and can differ between runs, while the
SCC contents, their count, the largest size, and every other metrics
field agree across enumerations in the hub scenario. -/
theorem C1_determinism_scope :
    (∀ (g : DependencyGraph) (m1 m2 : Metrics) (root t1 t2 : String),
      (graph_to_json_payload g m1 root t1).version
          = (graph_to_json_payload g m2 root t2).version
      ∧ (graph_to_json_payload g m1 root t1).project_root
          = (graph_to_json_payload g m2 root t2).project_root
      ∧ (graph_to_json_payload g m1 root t1).nodes
          = (graph_to_json_payload g m2 root t2).nodes
      ∧ (graph_to_json_payload g m1 root t1).edges
          = (graph_to_json_payload g m2 root t2).edges
      ∧ (graph_to_json_payload g m1 root t1).adjacency_forward
          = (graph_to_json_payload g m2 root t2).adjacency_forward
      ∧ (graph_to_json_payload g m1 root t1).adjacency_reverse
          = (graph_to_json_payload g m2 root t2).adjacency_reverse
      ∧ (graph_to_json_payload g m1 root t1).issues
          = (graph_to_json_payload g m2 root t2).issues)
    ∧ ((compute_metrics_ord (fun _ s => s)
          (build_dependency_graph scenarioHub)).cycles.sccs
        = [["module:m", "module:n"], ["module:x", "module:y"]]
      ∧ (compute_metrics_ord (fun _ s => s.reverse)
          (build_dependency_graph scenarioHub)).cycles.sccs
        = [["module:x", "module:y"], ["module:m", "module:n"]]
      ∧ (compute_metrics_ord (fun _ s => s)
            (build_dependency_graph scenarioHub)).cycles.sccs
        ≠ (compute_metrics_ord (fun _ s => s.reverse)
            (build_dependency_graph scenarioHub)).cycles.sccs
      ∧ (compute_metrics_ord (fun _ s => s)
            (build_dependency_graph scenarioHub)).summary
        = (compute_metrics_ord (fun _ s => s.reverse)
            (build_dependency_graph scenarioHub)).summary
      ∧ (compute_metrics_ord (fun _ s => s)
            (build_dependency_graph scenarioHub)).degree_metrics
        = (compute_metrics_ord (fun _ s => s.reverse)
            (build_dependency_graph scenarioHub)).degree_metrics
      ∧ (compute_metrics_ord (fun _ s => s)
            (build_dependency_graph scenarioHub)).entrypoints
        = (compute_metrics_ord (fun _ s => s.reverse)
            (build_dependency_graph scenarioHub)).entrypoints
      ∧ (compute_metrics_ord (fun _ s => s)
            (build_dependency_graph scenarioHub)).cycles.scc_count
        = (compute_metrics_ord (fun _ s => s.reverse)
            (build_dependency_graph scenarioHub)).cycles.scc_count
      ∧ (compute_metrics_ord (fun _ s => s)
            (build_dependency_graph scenarioHub)).cycles.largest_scc_size
        = (compute_metrics_ord (fun _ s => s.reverse)
            (build_dependency_graph scenarioHub)).cycles.largest_scc_size
      ∧ (compute_metrics_ord (fun _ s => s)
            (build_dependency_graph scenarioHub)).cycles.self_cycle_count
        = (compute_metrics_ord (fun _ s => s.reverse)
            (build_dependency_graph scenarioHub)).cycles.self_cycle_count) := by
  exact ⟨fun g m1 m2 root t1 t2 => ⟨rfl, rfl, rfl, rfl, rfl, rfl, rfl⟩,
    by decide⟩

/-- C3 counterexample: in the scenario pkg/a.py (`import b`), pkg/b.py
(`from . import c`), pkg/c.py (empty), the claim asserts an imports edge
pkg.a -> pkg.b, roots exactly pkg.a, and sinks exactly pkg.c.  The code
resolves the absolute `import b` to an external node instead, so no such
edge exists, pkg.b is also a root and pkg.a is also a sink. -/
theorem C3_counterexample :
    (build_dependency_graph scenarioPkg).edges.filter
        (fun e => e.source == "module:pkg.a" && e.target == "module:pkg.b")
      = []
    ∧ (compute_metrics (build_dependency_graph scenarioPkg)).entrypoints.roots
        ≠ ["module:pkg.a"]
    ∧ (compute_metrics (build_dependency_graph scenarioPkg)).entrypoints.sinks
        ≠ ["module:pkg.c"] := by decide

/-- C3 amended: the scenario graph has exactly 3 internal module nodes and
2 imports edges, but the absolute `import b` does not match any internal
module (pick_internal_module only strips trailing segments), so the edges
are pkg.a -> external b and pkg.b -> pkg.c, roots are pkg.a and pkg.b,
sinks are pkg.a and pkg.c, and there are zero cycles. -/
theorem C3_scenario_amended :
    (compute_metrics (build_dependency_graph scenarioPkg)).summary.internal_modules
        = 3
    ∧ (build_dependency_graph scenarioPkg).edges =
        [ { source := "module:pkg.a", target := "external:b",
            kind := "imports", raw := "b", import_type := some "import",
            lineno := some 1, col_offset := some 0 },
          { source := "module:pkg.b", target := "module:pkg.c",
            kind := "imports", raw := "pkg.c",
            import_type := some "relative_import",
            lineno := some 1, col_offset := some 0 } ]
    ∧ (compute_metrics (build_dependency_graph scenarioPkg)).entrypoints.roots
        = ["module:pkg.a", "module:pkg.b"]
    ∧ (compute_metrics (build_dependency_graph scenarioPkg)).entrypoints.sinks
        = ["module:pkg.a", "module:pkg.c"]
    ∧ (compute_metrics (build_dependency_graph scenarioPkg)).cycles.scc_count = 0
    ∧ (compute_metrics (build_dependency_graph scenarioPkg)).cycles.self_cycle_count
        = 0
    ∧ (compute_metrics (build_dependency_graph scenarioPkg)).cycles.sccs = [] := by
  decide

/-- C6: on modules A, B with edges A -> B and B -> A the analytics report
exactly one SCC of size 2 and zero self-cycles; on a single module A with
edge A -> A they report zero multi-node SCCs and exactly one self-cycle. -/
theorem C6_cycle_detection :
    (compute_metrics (build_dependency_graph scenarioMutual)).cycles =
      { scc_count := 1, self_cycle_count := 0, largest_scc_size := 2,
        sccs := [["module:a", "module:b"]] }
    ∧ (compute_metrics (build_dependency_graph scenarioSelfLoop)).cycles =
      { scc_count := 0, self_cycle_count := 1, largest_scc_size := 0,
        sccs := [["module:a"]] } := by decide

/-- C9: a file whose text fails to parse contributes exactly one
parse_error issue and nothing else (no nodes, no import or config edges),
and the per-file fold simply continues with the remaining files. -/
theorem C9_parse_error_isolation
    (mtf : StrDict String) (g : DependencyGraph) (rel msg : String)
    (rest : List SrcFile) :
    processFile mtf g ⟨rel, .error msg⟩
      = { g with issues := g.issues ++
          [{ type := "parse_error", file := rel, message := msg }] }
    ∧ List.foldl (processFile mtf) g (⟨rel, .error msg⟩ :: rest)
      = List.foldl (processFile mtf)
          (addIssue g { type := "parse_error", file := rel, message := msg })
          rest := ⟨rfl, rfl⟩

/-- C10: largest_scc_size only considers strongly connected components of
size greater than one; on a graph with self-cycles but no multi-node SCC
it is 0 while the reported sccs list (multi-node SCCs followed by
self-cycle singletons) is non-empty. -/
theorem C10_largest_scc_ignores_self_cycles
    (g : DependencyGraph) (h1 : cyclicSccs g = [])
    (h2 : selfCycles g ≠ []) :
    (compute_metrics g).cycles.largest_scc_size = 0
    ∧ (compute_metrics g).cycles.sccs = selfCycles g
    ∧ (compute_metrics g).cycles.sccs ≠ [] := by
  unfold cyclicSccs at h1
  refine ⟨?_, ?_, ?_⟩ <;>
    simp [compute_metrics, compute_metrics_ord, h1, h2]

lemma foldl_preserve {α β : Type} {Inv : β → Prop} {f : β → α → β}
    (hf : ∀ b a, Inv b → Inv (f b a)) :
    ∀ (l : List α) (b : β), Inv b → Inv (l.foldl f b) := by
  intro l
  induction l with
  | nil => intro b h; exact h
  | cons a t ih => intro b h; exact ih _ (hf b a h)

lemma mem_dictInsert {β : Type} {k : String} {v : β} {d : StrDict β}
    {p : String × β} (h : p ∈ dictInsert k v d) : p ∈ d ∨ p = (k, v) := by
  unfold dictInsert at h
  split at h
  · rcases List.mem_map.mp h with ⟨q, hq, heq⟩
    by_cases hk : (k == q.1) = true
    · right; rw [← heq]; simp [hk]
    · left; rw [← heq]; simp [hk]; exact hq
  · rcases List.mem_append.mp h with h1 | h1
    · left; exact h1
    · right; simpa using h1

/- Invariant: every node stored in the graph obeys the id/kind format. -/

def NodesOk (g : DependencyGraph) : Prop :=
  ∀ p ∈ g.nodes, NodeOk p.2

lemma nodesOk_addNode {g : DependencyGraph} {n : Node}
    (hn : NodeOk n) (hg : NodesOk g) : NodesOk (addNode g n) := by
  intro p hp
  rcases mem_dictInsert hp with h | h
  · exact hg p h
  · rw [h]; exact hn

lemma addEdge_nodes (g : DependencyGraph) (e : Edge) :
    (addEdge g e).nodes = g.nodes := rfl

lemma addIssue_nodes (g : DependencyGraph) (i : Issue) :
    (addIssue g i).nodes = g.nodes := rfl

lemma nodesOk_addEdge {g : DependencyGraph} {e : Edge}
    (hg : NodesOk g) : NodesOk (addEdge g e) := by
  intro p hp; exact hg p (by rwa [addEdge_nodes] at hp)

lemma nodesOk_addIssue {g : DependencyGraph} {i : Issue}
    (hg : NodesOk g) : NodesOk (addIssue g i) := by
  intro p hp; exact hg p (by rwa [addIssue_nodes] at hp)

lemma nodeOk_mkConfigNode (raw : String) : NodeOk (mkConfigNode raw) := by
  simp [NodeOk, mkConfigNode]

lemma nodeOk_mkExternalNode (candidate : String) :
    NodeOk (mkExternalNode candidate) := by
  simp [NodeOk, mkExternalNode]

lemma nodeOk_mkModuleNode (m rel : String) (b : Bool) :
    NodeOk (mkModuleNode m rel b) := by
  simp [NodeOk, mkModuleNode]

lemma nodesOk_processConfigStep (sid : String)
    (acc : DependencyGraph × List String) (entry : String × Nat × Nat)
    (h : NodesOk acc.1) : NodesOk (processConfigStep sid acc entry).1 := by
  obtain ⟨g, seen⟩ := acc
  have hg1 : NodesOk (if (List.lookup ("file:" ++ entry.1) g.nodes).isSome
      then g else addNode g (mkConfigNode entry.1)) := by
    split
    · exact h
    · exact nodesOk_addNode (nodeOk_mkConfigNode entry.1) h
  unfold processConfigStep
  dsimp only
  split
  · exact hg1
  · exact nodesOk_addEdge hg1

lemma nodesOk_processImportAlias (mtf : StrDict String) (sid : String)
    (l c : Nat) (g : DependencyGraph) (imported : String)
    (h : NodesOk g) : NodesOk (processImportAlias mtf sid l c g imported) := by
  unfold processImportAlias
  cases pick_internal_module imported mtf with
  | some t => exact nodesOk_addEdge h
  | none =>
    dsimp only
    refine nodesOk_addEdge ?_
    split
    · exact h
    · exact nodesOk_addNode (nodeOk_mkExternalNode imported) h

lemma nodesOk_processFromCandidate (mtf : StrDict String)
    (rel sid ib it : String) (isRel : Bool) (l c : Nat)
    (g : DependencyGraph) (candidate : String)
    (h : NodesOk g) :
    NodesOk (processFromCandidate mtf rel sid ib it isRel l c g candidate) := by
  unfold processFromCandidate
  dsimp only
  split
  · exact h
  · split
    · exact nodesOk_addEdge h
    · refine nodesOk_addEdge ?_
      have hg1 : NodesOk
          (if (List.lookup ("external:" ++ stripDots candidate) g.nodes).isSome
            then g else addNode g (mkExternalNode (stripDots candidate))) := by
        split
        · exact h
        · exact nodesOk_addNode (nodeOk_mkExternalNode _) h
      split
      · exact nodesOk_addIssue hg1
      · exact hg1

lemma nodesOk_processImportFrom (mtf : StrDict String)
    (rel mname : String) (is_pkg : Bool) (sid : String)
    (g : DependencyGraph) (module? : Option String) (names : List String)
    (level lineno col : Nat) (h : NodesOk g) :
    NodesOk (processImportFrom mtf rel mname is_pkg sid g module? names
      level lineno col) := by
  unfold processImportFrom
  dsimp only
  split
  · split
    · exact nodesOk_addIssue h
    · exact foldl_preserve
        (fun g cand hg => nodesOk_processFromCandidate _ _ _ _ _ _ _ _ g cand hg)
        _ g h
  · exact foldl_preserve
      (fun g cand hg => nodesOk_processFromCandidate _ _ _ _ _ _ _ _ g cand hg)
      _ g h

lemma nodesOk_processStmt (mtf : StrDict String) (rel mname : String)
    (is_pkg : Bool) (sid : String) (g : DependencyGraph) (s : Stmt)
    (h : NodesOk g) :
    NodesOk (processStmt mtf rel mname is_pkg sid g s) := by
  cases s with
  | imp names lineno col =>
    exact foldl_preserve
      (fun g imported hg => nodesOk_processImportAlias mtf sid lineno col
        g imported hg) names g h
  | impFrom module? names level lineno col =>
    exact nodesOk_processImportFrom mtf rel mname is_pkg sid g module?
      names level lineno col h
  | exprStmt e => exact h
  | block body => exact h

lemma nodesOk_processFile (mtf : StrDict String) (g : DependencyGraph)
    (f : SrcFile) (h : NodesOk g) : NodesOk (processFile mtf g f) := by
  unfold processFile
  dsimp only
  cases f.parsed with
  | error msg => exact nodesOk_addIssue h
  | ok body =>
    refine foldl_preserve
      (fun g s hg => nodesOk_processStmt _ _ _ _ _ g s hg) _ _ ?_
    exact @foldl_preserve _ _ (fun acc => NodesOk acc.1) _
      (fun acc entry hacc => nodesOk_processConfigStep _ acc entry hacc)
      _ (g, []) h

/-- C4 counterexample: the built graph contains a node of kind
python_module (not internal_module), and a config-file node whose id is
prefixed file: rather than config:, so the claimed kind set and the
claimed config: prefix are both violated. -/
theorem C4_counterexample :
    (List.lookup "module:app" (build_dependency_graph scenarioConfig).nodes).map
        (fun n => n.kind) = some "python_module"
    ∧ ("python_module" : String) ∉
        ["internal_module", "external_package", "config_file"]
    ∧ (List.lookup "file:cfg.yaml"
        (build_dependency_graph scenarioConfig).nodes).isSome = true
    ∧ ("config:".data.isPrefixOf "file:cfg.yaml".data) = false := by decide

/-- C4 amended: every node id has the format kind-prefix followed by the
label with the prefix drawn from module:, external:, file: matching the
node kind drawn from python_module, external_package, config_file; in
particular a config-file node id is prefixed file: and an internal module
node has kind python_module. -/
theorem C4_node_id_format (files : List SrcFile) (p : String × Node)
    (hp : p ∈ (build_dependency_graph files).nodes) : NodeOk p.2 := by
  revert p
  show NodesOk (build_dependency_graph files)
  unfold build_dependency_graph
  dsimp only
  refine foldl_preserve
    (fun g f hg => nodesOk_processFile _ g f hg) files _ ?_
  refine foldl_preserve
    (fun g q hg => nodesOk_addNode (nodeOk_mkModuleNode q.1 q.2 _) hg)
    _ _ ?_
  intro p hp
  cases hp

/-- C4 witness: the internal module node pkg.a of the package scenario
satisfies the id/kind format. -/
theorem C4_witness : NodeOk (mkModuleNode "pkg.a" "pkg/a.py" false) :=
  C4_node_id_format scenarioPkg
    ("module:pkg.a", mkModuleNode "pkg.a" "pkg/a.py" false) (by decide)

lemma lookup_none_any_false {β : Type} {k : String} {d : StrDict β}
    (h : List.lookup k d = none) : d.any (fun p => k == p.1) = false := by
  induction d with
  | nil => rfl
  | cons p t ih =>
    by_cases hkp : k == p.1
    · simp [List.lookup, hkp] at h
    · simp only [List.lookup, hkp] at h
      simp [List.any_cons, hkp, ih h]

lemma dictInsert_of_lookup_none {β : Type} {k : String} {v : β} {d : StrDict β}
    (h : List.lookup k d = none) : dictInsert k v d = d ++ [(k, v)] := by
  unfold dictInsert
  rw [lookup_none_any_false h]
  simp

/-- C2 counterexample: `from requests.sessions import Session` and
`import requests` do not collapse onto one external node `requests`; the
builder keys external nodes by the full candidate string, producing the
two distinct nodes external:requests.sessions.Session and
external:requests, and no node keyed by the first dotted segment of the
from-import candidate is reused for it. -/
theorem C2_counterexample :
    ((build_dependency_graph scenarioRequests).nodes.filter
        (fun p => p.2.kind == "external_package")).map (fun p => p.1)
      = ["external:requests.sessions.Session", "external:requests"]
    ∧ List.lookup "external:requests.sessions"
        (build_dependency_graph scenarioRequests).nodes = none := by decide

/-- C2 amended: for an import whose target matches no internal module, the
builder creates an external_package node keyed by the full candidate
string, not by its first dotted segment.  Part one covers plain imports;
part two covers every from-import candidate under any base (empty or one
that itself resolves to no internal module); part three shows that for a
non-empty base the candidates are exactly base.member (the base with the
imported member appended, the base alone for a wildcard), so distinct
candidate strings yield distinct external nodes. -/
theorem C2_external_keyed_by_full_candidate :
    (∀ (mtf : StrDict String) (sid : String) (l c : Nat)
        (g : DependencyGraph) (imported : String),
      pick_internal_module imported mtf = none →
      List.lookup ("external:" ++ imported) g.nodes = none →
      (processImportAlias mtf sid l c g imported).nodes
          = g.nodes ++ [("external:" ++ imported, mkExternalNode imported)]
        ∧ (processImportAlias mtf sid l c g imported).edges
          = g.edges ++
            [{ source := sid, target := "external:" ++ imported,
               kind := "imports", raw := imported,
               import_type := some "import",
               lineno := some l, col_offset := some c }])
    ∧ (∀ (mtf : StrDict String) (rel sid ib it : String) (isRel : Bool)
        (l c : Nat) (g : DependencyGraph) (candidate : String),
      stripDots candidate = candidate →
      candidate ≠ "" →
      pick_internal_module candidate mtf = none →
      (ib = "" ∨ pick_internal_module ib mtf = none) →
      List.lookup ("external:" ++ candidate) g.nodes = none →
      (processFromCandidate mtf rel sid ib it isRel l c g candidate).nodes
          = g.nodes ++ [("external:" ++ candidate, mkExternalNode candidate)]
        ∧ (processFromCandidate mtf rel sid ib it isRel l c g candidate).edges
          = g.edges ++
            [{ source := sid, target := "external:" ++ candidate,
               kind := "imports", raw := candidate,
               import_type := some it,
               lineno := some l, col_offset := some c }])
    ∧ (∀ (base : String) (names : List String),
      base ≠ "" → names ≠ [] →
      aliasTargets base names
        = names.map (fun a =>
            if a = "*" then base else base ++ "." ++ a)) := by
  refine ⟨?_, ?_, ?_⟩
  · intro mtf sid l c g imported h1 h2
    simp [processImportAlias, h1, h2, addNode, addEdge, mkExternalNode,
      dictInsert_of_lookup_none h2]
  · intro mtf rel sid ib it isRel l c g candidate hstrip hne h1 hib h2
    by_cases hib0 : ib = ""
    · subst hib0
      cases isRel <;>
        simp [processFromCandidate, hstrip, hne, h1, h2, addNode, addEdge,
          addIssue, mkExternalNode, dictInsert_of_lookup_none h2]
    · have hpick : pick_internal_module ib mtf = none := by
        rcases hib with hib | hib
        · exact absurd hib hib0
        · exact hib
      cases isRel <;>
        simp [processFromCandidate, hstrip, hne, h1, hib0, hpick, h2,
          addNode, addEdge, addIssue, mkExternalNode,
          dictInsert_of_lookup_none h2]
  · intro base names hB hnames
    cases names with
    | nil => exact absurd rfl hnames
    | cons a t => simp [aliasTargets, hB]

/-- C2 witness: against an index holding only the module `main`, the plain
`import requests` yields external:requests, the from-import candidate
requests.sessions.Session under the unresolvable base requests.sessions
yields external:requests.sessions.Session, and the aliasTargets of base
requests.sessions with member Session is that full candidate. -/
theorem C2_witness :
    (processImportAlias [("main", "main.py")] "module:main" 2 0
        (build_dependency_graph [⟨"main.py", .ok []⟩]) "requests").nodes
      = (build_dependency_graph [⟨"main.py", .ok []⟩]).nodes
        ++ [("external:requests", mkExternalNode "requests")]
    ∧ (processFromCandidate [("main", "main.py")] "main.py" "module:main"
        "requests.sessions" "from_import" false 1 0
        (build_dependency_graph [⟨"main.py", .ok []⟩])
        "requests.sessions.Session").nodes
      = (build_dependency_graph [⟨"main.py", .ok []⟩]).nodes
        ++ [("external:requests.sessions.Session",
             mkExternalNode "requests.sessions.Session")]
    ∧ aliasTargets "requests.sessions" ["Session"]
      = ["requests.sessions.Session"] := by
  refine ⟨(C2_external_keyed_by_full_candidate.1 [("main", "main.py")]
      "module:main" 2 0 (build_dependency_graph [⟨"main.py", .ok []⟩])
      "requests" (by decide) (by decide)).1,
    (C2_external_keyed_by_full_candidate.2.1 [("main", "main.py")]
      "main.py" "module:main" "requests.sessions" "from_import" false 1 0
      (build_dependency_graph [⟨"main.py", .ok []⟩])
      "requests.sessions.Session" (by decide) (by decide) (by decide)
      (Or.inr (by decide)) (by decide)).1, ?_⟩
  rw [C2_external_keyed_by_full_candidate.2.2 "requests.sessions"
    ["Session"] (by decide) (by decide)]
  rfl

/-- C5: a relative import of level L in a module whose package has P
dotted segments resolves against the base obtained by dropping (L - 1)
trailing package segments; when (L - 1) exceeds P resolution fails, one
relative_import_error issue is recorded and no edge is emitted for that
statement. -/
theorem C5_relative_import_resolution
    (current : String) (is_pkg : Bool) (L : Nat) (hL : 1 ≤ L) :
    ((L - 1) ≤ (packagePartsOf current is_pkg).length →
      resolve_relative_base current is_pkg L
        = some (joinDot ((packagePartsOf current is_pkg).take
            ((packagePartsOf current is_pkg).length - (L - 1)))))
    ∧ ((packagePartsOf current is_pkg).length < L - 1 →
      resolve_relative_base current is_pkg L = none
      ∧ ∀ (mtf : StrDict String) (rel sid : String) (g : DependencyGraph)
          (module? : Option String) (names : List String) (lineno col : Nat),
          processImportFrom mtf rel current is_pkg sid g module? names L
              lineno col
            = addIssue g
              { type := "relative_import_error", file := rel,
                message := "Unable to resolve relative import: level=" ++
                  toString L ++ ", module=" ++ module?.getD "",
                lineno := some lineno }) := by
  constructor
  · intro h
    have hno : ¬ (L - 1 > (packagePartsOf current is_pkg).length) := by omega
    simp [resolve_relative_base, hno]
  · intro h
    have hres : resolve_relative_base current is_pkg L = none := by
      simp [resolve_relative_base, h]
    have hL0 : 0 < L := by omega
    refine ⟨hres, ?_⟩
    intro mtf rel sid g module? names lineno col
    simp [processImportFrom, hL0, hres]

/-- C5 witness: in module pkg.sub.mod, level 1 resolves to pkg.sub, level
2 to pkg, and level 4 exceeds the two package segments and fails. -/
theorem C5_witness :
    resolve_relative_base "pkg.sub.mod" false 1 = some "pkg.sub"
    ∧ resolve_relative_base "pkg.sub.mod" false 2 = some "pkg"
    ∧ resolve_relative_base "pkg.sub.mod" false 4 = none := by
  have h1 := C5_relative_import_resolution "pkg.sub.mod" false 1 (by decide)
  have h2 := C5_relative_import_resolution "pkg.sub.mod" false 2 (by decide)
  have h4 := C5_relative_import_resolution "pkg.sub.mod" false 4 (by decide)
  refine ⟨?_, ?_, (h4.2 (by decide)).1⟩
  · rw [h1.1 (by decide)]; decide
  · rw [h2.1 (by decide)]; decide

/-- C7 counterexample: a bare string literal settings.yaml (outside any
call) has a configuration-extension suffix yet is not detected, and the
literal notes.py that is the first argument of an open call is not
detected either; detection requires both the call context and the
extension at once. -/
theorem C7_counterexample :
    extract_config_accesses [.exprStmt (.constStr "settings.yaml" 1 0)] = []
    ∧ hasConfigExt (strToLower "settings.yaml") = true
    ∧ extract_config_accesses
        [.exprStmt (.call (.name "open") [.constStr "notes.py" 3 5] 3 0)]
      = [] := by decide

/-- C7 amended: config-access detection finds exactly the string literals
that occur as the first argument of a recognized file-opening call and
whose lowercased suffix matches a configuration extension; each match is
the separator-normalized path with the call position, and a literal
outside such a call is never a candidate. -/
theorem C7_config_detection_characterization (body : List Stmt)
    (x : String × Nat × Nat) :
    x ∈ extract_config_accesses body
      ↔ ∃ f args lineno col, Expr.call f args lineno col ∈ bodyExprs body
          ∧ ∃ s sl sc rest, args = Expr.constStr s sl sc :: rest
            ∧ hasConfigExt (strToLower s) = true
            ∧ funcMatches f = true
            ∧ x = (normalize_config_path s, lineno, col) := by
  unfold extract_config_accesses
  rw [List.mem_filterMap]
  constructor
  · rintro ⟨e, he, hm⟩
    cases e with
    | call f args lineno col =>
      cases args with
      | nil => simp [matchesConfig] at hm
      | cons a rest =>
        cases a with
        | constStr s sl sc =>
          by_cases hcond :
              hasConfigExt (strToLower s) = true ∧ funcMatches f = true
          · refine ⟨f, Expr.constStr s sl sc :: rest, lineno, col, he,
              s, sl, sc, rest, rfl, hcond.1, hcond.2, ?_⟩
            simp [matchesConfig, hcond.1, hcond.2] at hm
            exact hm.symm
          · exfalso
            rcases Decidable.not_and_iff_or_not.mp hcond with hc | hc <;>
              simp [matchesConfig, Bool.not_eq_true] at hm hc <;>
              simp [hc] at hm
        | call f2 args2 l2 c2 => simp [matchesConfig] at hm
        | constOther => simp [matchesConfig] at hm
        | other cs => simp [matchesConfig] at hm
    | constStr s sl sc => simp [matchesConfig] at hm
    | constOther => simp [matchesConfig] at hm
    | other cs => simp [matchesConfig] at hm
  · rintro ⟨f, args, lineno, col, hmem, s, sl, sc, rest, rfl, h1, h2, rfl⟩
    exact ⟨_, hmem, by simp [matchesConfig, h1, h2]⟩

lemma lookup_none_of_not_mem_keys {β : Type} {k : String} {d : StrDict β}
    (h : k ∉ d.map Prod.fst) : List.lookup k d = none := by
  induction d with
  | nil => rfl
  | cons p t ih =>
    simp only [List.map_cons, List.mem_cons, not_or] at h
    have hb : (k == p.1) = false := beq_eq_false_iff_ne.mpr h.1
    simp [List.lookup, hb, ih h.2]

lemma foldl_dictInsert_map {α β : Type} (keyf : α → String) (valf : α → β) :
    ∀ (l : List α) (d : StrDict β),
      (d.map Prod.fst ++ l.map keyf).Nodup →
      l.foldl (fun d x => dictInsert (keyf x) (valf x) d) d
        = d ++ l.map (fun x => (keyf x, valf x)) := by
  intro l
  induction l with
  | nil => intro d _; simp
  | cons x t ih =>
    intro d h
    have hfresh : keyf x ∉ d.map Prod.fst := by
      intro hmem
      have hd := List.nodup_append.mp h
      have := hd.2.2 hmem
      simp at this
    rw [List.foldl_cons,
      dictInsert_of_lookup_none (lookup_none_of_not_mem_keys hfresh),
      ih (d ++ [(keyf x, valf x)]) (by simpa [List.append_assoc] using h)]
    simp

lemma lookup_map_of_mem {α β : Type} (keyf : α → String) (valf : α → β) :
    ∀ (l : List α), (l.map keyf).Nodup → ∀ x ∈ l,
      List.lookup (keyf x) (l.map (fun y => (keyf y, valf y)))
        = some (valf x) := by
  intro l
  induction l with
  | nil => intro _ x hx; cases hx
  | cons y t ih =>
    intro h x hx
    rcases List.mem_cons.mp hx with rfl | hx2
    · simp [List.lookup]
    · have hne : (keyf x == keyf y) = false := by
        refine beq_eq_false_iff_ne.mpr ?_
        intro he
        exact (List.nodup_cons.mp h).1 (he ▸ List.mem_map_of_mem keyf hx2)
      simp only [List.map_cons, List.lookup, hne]
      exact ih (List.nodup_cons.mp h).2 x hx2

lemma lookup_map_some {α β : Type} (keyf : α → String) (valf : α → β) :
    ∀ (l : List α) (k : String) (v : β),
      List.lookup k (l.map (fun y => (keyf y, valf y))) = some v →
      ∃ x ∈ l, keyf x = k ∧ valf x = v := by
  intro l
  induction l with
  | nil => intro k v h; simp [List.lookup] at h
  | cons y t ih =>
    intro k v h
    cases hbeq : (k == keyf y) with
    | true =>
      simp only [List.map_cons, List.lookup, hbeq, Option.some.injEq] at h
      exact ⟨y, by simp, (beq_iff_eq.mp hbeq).symm, h⟩
    | false =>
      simp only [List.map_cons, List.lookup, hbeq] at h
      rcases ih k v h with ⟨x, hx, hk, hv⟩
      exact ⟨x, by simp [hx], hk, hv⟩

lemma bmi_fst (rels : List String) : ∀ acc,
    (rels.foldl moduleIndexStep acc).1
      = rels.foldl
          (fun d rel => dictInsert (module_name_from_path rel).1 rel d)
          acc.1 := by
  induction rels with
  | nil => intro acc; rfl
  | cons r t ih =>
    intro acc
    rw [List.foldl_cons, List.foldl_cons, ih]
    rfl

lemma bmi_ftm (rels : List String) : ∀ acc,
    (rels.foldl moduleIndexStep acc).2.1
      = rels.foldl
          (fun d rel => dictInsert rel (module_name_from_path rel).1 d)
          acc.2.1 := by
  induction rels with
  | nil => intro acc; rfl
  | cons r t ih =>
    intro acc
    rw [List.foldl_cons, List.foldl_cons, ih]
    rfl

lemma build_module_index_fst_eq (rels : List String)
    (h : (rels.map (fun r => (module_name_from_path r).1)).Nodup) :
    (build_module_index rels).1
      = rels.map (fun r => ((module_name_from_path r).1, r)) := by
  unfold build_module_index
  rw [bmi_fst rels ([], [], [])]
  simpa using
    foldl_dictInsert_map (fun r => (module_name_from_path r).1) id rels []
      (by simpa using h)

lemma build_module_index_ftm_eq (rels : List String)
    (h : rels.Nodup) :
    (build_module_index rels).2.1
      = rels.map (fun r => (r, (module_name_from_path r).1)) := by
  unfold build_module_index
  rw [bmi_ftm rels ([], [], [])]
  simpa using
    foldl_dictInsert_map id (fun r => (module_name_from_path r).1) rels []
      (by simpa using h)

/-- C8 counterexample: for the discovered set pkg/__init__.py, pkg.py the
two files collide on the module name pkg, so file_to_module maps
pkg/__init__.py to pkg while module_to_file maps pkg back to pkg.py: the
indices are not mutual inverses on every discovered set. -/
theorem C8_counterexample :
    List.lookup "pkg/__init__.py"
        (build_module_index ["pkg/__init__.py", "pkg.py"]).2.1 = some "pkg"
    ∧ List.lookup "pkg"
        (build_module_index ["pkg/__init__.py", "pkg.py"]).1 = some "pkg.py"
    ∧ ("pkg.py" : String) ≠ "pkg/__init__.py" := by decide

/-- C8 amended: whenever the discovered files induce pairwise distinct
module names (no collision such as pkg.py next to pkg/__init__.py), the
indices module_to_file and file_to_module are total over the discovered
set and mutual inverses. -/
theorem C8_index_bijection (rels : List String)
    (h : (rels.map (fun r => (module_name_from_path r).1)).Nodup) :
    (∀ r ∈ rels,
      List.lookup r (build_module_index rels).2.1
          = some (module_name_from_path r).1
        ∧ List.lookup (module_name_from_path r).1 (build_module_index rels).1
          = some r)
    ∧ (∀ r m, List.lookup r (build_module_index rels).2.1 = some m →
        List.lookup m (build_module_index rels).1 = some r)
    ∧ (∀ m r, List.lookup m (build_module_index rels).1 = some r →
        List.lookup r (build_module_index rels).2.1 = some m) := by
  have hrels : rels.Nodup := List.Nodup.of_map _ h
  have hfst := build_module_index_fst_eq rels h
  have hftm := build_module_index_ftm_eq rels hrels
  refine ⟨?_, ?_, ?_⟩
  · intro r hr
    constructor
    · rw [hftm]
      exact lookup_map_of_mem id (fun r => (module_name_from_path r).1)
        rels (by simpa using hrels) r hr
    · rw [hfst]
      exact lookup_map_of_mem (fun r => (module_name_from_path r).1) id
        rels h r hr
  · intro r m hm
    rw [hftm] at hm
    rcases lookup_map_some id (fun r => (module_name_from_path r).1)
      rels r m hm with ⟨x, hx, hk, hv⟩
    have hxr : x = r := hk
    subst hxr
    rw [hfst, ← hv]
    exact lookup_map_of_mem (fun r => (module_name_from_path r).1) id
      rels h x hx
  · intro m r hm
    rw [hfst] at hm
    rcases lookup_map_some (fun r => (module_name_from_path r).1) id
      rels m r hm with ⟨x, hx, hk, hv⟩
    have hxr : x = r := hv
    subst hxr
    rw [hftm, ← hk]
    exact lookup_map_of_mem id (fun r => (module_name_from_path r).1)
      rels (by simpa using hrels) x hx

/-- C8 witness: for the collision-free set pkg/a.py, pkg/b.py the indices
round-trip on pkg/a.py. -/
theorem C8_witness :
    List.lookup "pkg/a.py"
        (build_module_index ["pkg/a.py", "pkg/b.py"]).2.1 = some "pkg.a"
    ∧ List.lookup "pkg.a"
        (build_module_index ["pkg/a.py", "pkg/b.py"]).1 = some "pkg/a.py" := by
  have h := (C8_index_bijection ["pkg/a.py", "pkg/b.py"] (by decide)).1
    "pkg/a.py" (by decide)
  have hm : (module_name_from_path "pkg/a.py").1 = "pkg.a" := by decide
  exact ⟨by rw [h.1, hm], by rw [← hm]; exact h.2⟩

/-- C10 witness: the self-loop scenario instantiates the theorem. -/
theorem C10_witness :
    (compute_metrics (build_dependency_graph scenarioSelfLoop)).cycles.largest_scc_size
        = 0
    ∧ (compute_metrics (build_dependency_graph scenarioSelfLoop)).cycles.sccs
        = selfCycles (build_dependency_graph scenarioSelfLoop)
    ∧ (compute_metrics (build_dependency_graph scenarioSelfLoop)).cycles.sccs
        ≠ [] :=
  C10_largest_scc_ignores_self_cycles (build_dependency_graph scenarioSelfLoop)
    (by decide) (by decide)

end DepAnalyzer
